import Mathlib

/-!
Verification of the `derive_from_env` resolution engine.

The repository contains two iterations of the engine:

* `derive_from_env_proc/src/lib.rs` — the procedural macro present in the
  sources.  For each struct it generates two loaders, `from_env` (leaf
  variable name = upper-cased field name) and `from_env_with_prefix`
  (leaf variable name = `format!("{prefix}_{NAME}")`, joined
  unconditionally).  Scalar fields support `default` and `var`
  attributes; nested struct fields support `no_prefix` (which makes the
  generated code call the child's `from_env`, i.e. resolve the child
  with no prefix at all).  Its error type
  (`derive_from_env/src/lib.rs`) carries `var_name`, `expected_type`
  and `str_value`.  This iteration is embedded below as the `Old`
  definitions (`resolveFieldOld`, `resolveFieldsOld`, ...), translated
  line by line from the generated code.

* the current crate (`src/lib.rs` at the repository root) whose error
  type `FromEnvError` carries only `var_name` and `expected_type` —
  no `str_value` — and whose derive macro (exercised by
  `tests/comprehensive.rs`) additionally supports struct-level
  `prefix`, `rename`, `flatten` and `Option` fields.  The macro
  implementation itself is not among the given sources, so the
  resolution algorithm of this iteration is modelled from the spec
  (definitions marked `Modelled from the spec:`); its error type is
  embedded from `src/lib.rs` as found.

Environments are association lists, per-scalar parsers are the
pluggable `String → Option Val` collaborators of spec §6.
-/

/-- Decidable equality for `Except`, used to evaluate resolution results
on concrete schemas and environments. -/
instance {e a : Type} [DecidableEq e] [DecidableEq a] : DecidableEq (Except e a) := fun x y =>
  match x, y with
  | .ok u, .ok v =>
    if h : u = v then .isTrue (by rw [h]) else .isFalse (fun hh => by cases hh; exact h rfl)
  | .error u, .error v =>
    if h : u = v then .isTrue (by rw [h]) else .isFalse (fun hh => by cases hh; exact h rfl)
  | .ok _, .error _ => .isFalse (fun hh => by cases hh)
  | .error _, .ok _ => .isFalse (fun hh => by cases hh)

/-- A parsed scalar value.  Rust parses environment text with the
field's `FromStr` implementation; the result is opaque to the engine,
so a small universe of values suffices. -/
inductive Val where
  | str (s : String)
  | nat (n : Nat)
  | bool (b : Bool)
deriving DecidableEq

mutual
/-- The resolved value tree (spec §3): a leaf holds one parsed scalar,
an optional leaf holds the value of an `Option` field, a node holds the
fields of a resolved struct in declaration order. -/
inductive VTree where
  | leaf (v : Val)
  | optLeaf (v : Option Val)
  | node (children : VTrees)
deriving DecidableEq
/-- Children of a `VTree.node`, in field declaration order. -/
inductive VTrees where
  | nil
  | cons (t : VTree) (ts : VTrees)
deriving DecidableEq
end

/-- The environment: a key to string association list, looked up by
`getEnv` (models `std::env::var`). -/
abbrev Env := List (String × String)

/-- Environment lookup; `none` models `std::env::var` returning
`Err(VarError::NotPresent)`.  A variable bound to the empty string is
present with value `""`. -/
def getEnv : Env → String → Option String
  | [], _ => none
  | (k, v) :: rest, n => if k = n then some v else getEnv rest n

/-- Upper-casing of a field identifier, modelling Rust's
`str::to_uppercase` on ASCII identifiers. -/
def upper (s : String) : String := String.mk (s.data.map Char.toUpper)

/-- The `String` parser (Rust `String::from_str`, which never fails). -/
def parseStrV (s : String) : Option Val := some (.str s)

/-- Digit accumulator for `parseNatV`. -/
def natOfDigitsAux : List Char → Nat → Option Nat
  | [], acc => some acc
  | c :: cs, acc => if c.isDigit then natOfDigitsAux cs (acc * 10 + (c.toNat - 48)) else none

/-- A numeric parser standing in for `u16::from_str` / `i32::from_str`
on non-negative input: fails on empty or non-digit text.  Parsers are
external collaborators (spec §6); this one is used for concrete
witnesses. -/
def parseNatV (s : String) : Option Val :=
  match s.data with
  | [] => none
  | cs => (natOfDigitsAux cs 0).map Val.nat

/-- Error type of the superseded iteration
(`derive_from_env/src/lib.rs` lines 4–14): `ParsingFailure` carries the
raw text `str_value` in addition to `var_name` and `expected_type`. -/
inductive OldErr where
  | missingEnvVar (var_name : String)
  | parsingFailure (var_name expected_type str_value : String)
deriving DecidableEq

mutual
/-- A field as classified by the proc macro in
`derive_from_env_proc/src/lib.rs`: a scalar (its type satisfies
`impl_from_str` or carries `from_str`) with optional `default` and
`var` attributes, or a nested struct field with its `no_prefix` flag.
The macro panics when `default` or `var` is put on a nested field, so
those combinations are unrepresentable here. -/
inductive OldField where
  | scalar (name tyName : String) (parse : String → Option Val)
      (dflt : Option String) (var : Option String)
  | nested (name : String) (noPfx : Bool) (children : OldFields)
/-- The ordered fields of a derived struct (old iteration). -/
inductive OldFields where
  | nil
  | cons (f : OldField) (fs : OldFields)
end

/-- The leaf variable name used by the generated loaders: the bare
upper-cased fragment in `from_env`, and `format!("{prefix}_{}", FRAG)`
— joined unconditionally, even for an empty prefix — in
`from_env_with_prefix` (lines 84/107 and 137/159 of the proc macro).
`none` models the `from_env` loader, `some p` the
`from_env_with_prefix(p)` loader. -/
def oldVarName : Option String → String → String
  | none, frag => frag
  | some p, frag => p ++ "_" ++ frag

/-- The variable a scalar loader reads: the `var` attribute verbatim
when present (lines 71–81 / 146–156), otherwise the composed name. -/
def oldLeafVar (pfx : Option String) (var : Option String) (name : String) : String :=
  match var with
  | some v => v
  | none => oldVarName pfx (upper name)

mutual
/-- One generated field loader of the proc macro
(`derive_from_env_proc/src/lib.rs` lines 38–111 for `from_env`,
112–184 for `from_env_with_prefix`).  With a default, the loader parses
`env::var(name).unwrap_or_else(|_| default)`; without one it maps the
lookup error to `MissingEnvVar` and a parse error to `ParsingFailure`
with the raw text.  A nested field with `no_prefix` is loaded via the
child's `from_env()` (no prefix at all); otherwise via
`from_env_with_prefix` of the composed name. -/
def resolveFieldOld (pfx : Option String) (env : Env) : OldField → Except OldErr VTree
  | .scalar name ty parse dflt var =>
    let vn := oldLeafVar pfx var name
    match dflt with
    | some d =>
      let s := (getEnv env vn).getD d
      match parse s with
      | some v => .ok (.leaf v)
      | none => .error (.parsingFailure vn ty s)
    | none =>
      match getEnv env vn with
      | none => .error (.missingEnvVar vn)
      | some s =>
        match parse s with
        | some v => .ok (.leaf v)
        | none => .error (.parsingFailure vn ty s)
  | .nested name noPfx children =>
    if noPfx then
      (resolveFieldsOld none env children).map VTree.node
    else
      (resolveFieldsOld (some (oldVarName pfx (upper name))) env children).map VTree.node
/-- The body of a generated loader, `Ok(Self { f1: load1?, f2: load2?,
... })` (lines 186–204): fields are loaded in declaration order and the
first `Err` is returned by `?`. -/
def resolveFieldsOld (pfx : Option String) (env : Env) : OldFields → Except OldErr VTrees
  | .nil => .ok .nil
  | .cons f fs =>
    match resolveFieldOld pfx env f with
    | .error e => .error e
    | .ok t =>
      match resolveFieldsOld pfx env fs with
      | .error e => .error e
      | .ok ts => .ok (.cons t ts)
end

/-- The generated `from_env` entry point (old iteration). -/
def fromEnvOld (env : Env) (fields : OldFields) : Except OldErr VTree :=
  (resolveFieldsOld none env fields).map VTree.node

/-- The generated `from_env_with_prefix` entry point (old iteration). -/
def fromEnvWithPfxOld (p : String) (env : Env) (fields : OldFields) : Except OldErr VTree :=
  (resolveFieldsOld (some p) env fields).map VTree.node

/-- Concatenation of field lists, used to state fail-fast ordering. -/
def oldAppend : OldFields → OldFields → OldFields
  | .nil, gs => gs
  | .cons f fs, gs => .cons f (oldAppend fs gs)

/-- Error type of the current crate (`src/lib.rs` lines 137–146):
`MissingEnvVar` carries `var_name`; `ParsingFailure` carries `var_name`
and `expected_type` only — it has no `str_value` field. -/
inductive FromEnvError where
  | missingEnvVar (var_name : String)
  | parsingFailure (var_name expected_type : String)
deriving DecidableEq

mutual
/-- Modelled from the spec: the Field Descriptor of spec §3 for the
current derive macro, whose implementation is missing from the given
sources (only its tests, `tests/comprehensive.rs`, and the crate root
`src/lib.rs` are present).  A field is a scalar leaf, an optional
scalar leaf, or a nested node; `var` is an absolute variable name,
`ren` the `rename` fragment override, `dflt` the textual default
(valid on scalars only), `noPfx` the `no_prefix` marker on nested
fields. -/
inductive SField where
  | scalar (name tyName : String) (parse : String → Option Val)
      (var ren dflt : Option String)
  | optional (name tyName : String) (parse : String → Option Val)
      (var ren : Option String)
  | nested (name : String) (ren : Option String) (noPfx : Bool) (child : SNode)
/-- Modelled from the spec: the Schema Node of spec §3 — an optional
struct-level `prefix` attribute (`ownPfx`) and the ordered fields. -/
inductive SNode where
  | mk (ownPfx : Option String) (fields : SFields)
/-- Modelled from the spec: the ordered field sequence of a Schema
Node. -/
inductive SFields where
  | nil
  | cons (f : SField) (fs : SFields)
end

/-- Modelled from the spec: trimming of one trailing separator from a
struct-level prefix attribute, spec §4.2 step 1 (the `single
trim-then-join` policy of §9 is normative). -/
def trimTrailingSep (s : String) : String :=
  if s.data.getLast? = some '_' then String.mk s.data.dropLast else s

/-- Modelled from the spec: the name-composition rule of §4.2.a —
`effective_prefix + "_" + fragment` when the effective prefix is
non-empty, the bare fragment otherwise.  Also used to join an incoming
prefix with a trimmed own-prefix (§4.2 step 1) and with a nested
field's fragment (§4.2.d). -/
def joinName (pfx frag : String) : String := if pfx = "" then frag else pfx ++ "_" ++ frag

/-- Modelled from the spec: the effective prefix of a node (§4.2
step 1): the declared own prefix is trimmed of a trailing separator and
appended to the incoming prefix with a joining underscore, the join
omitted when the incoming prefix is empty; without a declared prefix
the incoming prefix is used unchanged. -/
def effPfxOf (incoming : String) : Option String → String
  | some own => joinName incoming (trimTrailingSep own)
  | none => incoming

/-- Modelled from the spec: the name fragment of a field (§4.2.a) —
`rename` if present, else the upper-cased field name. -/
def fragOf (name : String) : Option String → String
  | some r => r
  | none => upper name

/-- Modelled from the spec: the variable a leaf reads (§4.2.a): the
`var` override verbatim when present, bypassing all composition;
otherwise the composed name. -/
def leafVar (eff : String) (var : Option String) (frag : String) : String :=
  match var with
  | some v => v
  | none => joinName eff frag

mutual
/-- Modelled from the spec: resolution of one field under an effective
prefix (§4.2 step 2) for the current engine, whose macro implementation
is missing from the sources.  Scalar: present text is parsed (failure
is a `ParsingFailure` naming the variable), absent falls back to the
default text if any, else `MissingEnvVar`.  Optional: absent resolves
to no value, never an error.  Nested: the child inherits the effective
prefix unchanged under `no_prefix`, else the prefix extended by the
field's fragment (§4.2.d).  Errors are the current crate's
`FromEnvError` (no `str_value`). -/
def resolveField (eff : String) (env : Env) : SField → Except FromEnvError VTree
  | .scalar name ty parse var ren dflt =>
    let vn := leafVar eff var (fragOf name ren)
    match getEnv env vn with
    | some s =>
      match parse s with
      | some v => .ok (.leaf v)
      | none => .error (.parsingFailure vn ty)
    | none =>
      match dflt with
      | some d =>
        match parse d with
        | some v => .ok (.leaf v)
        | none => .error (.parsingFailure vn ty)
      | none => .error (.missingEnvVar vn)
  | .optional name ty parse var ren =>
    let vn := leafVar eff var (fragOf name ren)
    match getEnv env vn with
    | some s =>
      match parse s with
      | some v => .ok (.optLeaf (some v))
      | none => .error (.parsingFailure vn ty)
    | none => .ok (.optLeaf none)
  | .nested name ren noPfx child =>
    resolveNode (if noPfx then eff else joinName eff (fragOf name ren)) env child
/-- Modelled from the spec: resolution of a Schema Node against an
incoming prefix (§4.2): compute the effective prefix, resolve the
fields in declaration order, assemble the value tree. -/
def resolveNode (incoming : String) (env : Env) : SNode → Except FromEnvError VTree
  | .mk ownPfx fields => (resolveFields (effPfxOf incoming ownPfx) env fields).map VTree.node
/-- Modelled from the spec: fail-fast resolution of a field sequence in
declaration order (§4.2 step 2); the first error aborts. -/
def resolveFields (eff : String) (env : Env) : SFields → Except FromEnvError VTrees
  | .nil => .ok .nil
  | .cons f fs =>
    match resolveField eff env f with
    | .error e => .error e
    | .ok t =>
      match resolveFields eff env fs with
      | .error e => .error e
      | .ok ts => .ok (.cons t ts)
end

/-- Modelled from the spec: the convenience entry point
`resolve_root(schema) = resolve(schema, "", env)` of §4.2. -/
def resolveRoot (env : Env) (s : SNode) : Except FromEnvError VTree := resolveNode "" env s

mutual
/-- Modelled from the spec: the variable names a field's resolution
consults, mirroring the name computation of `resolveField`. -/
def varNamesField (eff : String) : SField → List String
  | .scalar name _ _ var ren _ => [leafVar eff var (fragOf name ren)]
  | .optional name _ _ var ren => [leafVar eff var (fragOf name ren)]
  | .nested name ren noPfx child =>
    varNamesNode (if noPfx then eff else joinName eff (fragOf name ren)) child
/-- Modelled from the spec: the variable names a node's resolution
consults. -/
def varNamesNode (incoming : String) : SNode → List String
  | .mk ownPfx fields => varNamesFields (effPfxOf incoming ownPfx) fields
/-- Modelled from the spec: the variable names a field sequence's
resolution consults, in declaration order. -/
def varNamesFields (eff : String) : SFields → List String
  | .nil => []
  | .cons f fs => varNamesField eff f ++ varNamesFields eff fs
end

mutual
/-- True when a field (and all its descendants) has no `var`
override. -/
def varFreeField : SField → Bool
  | .scalar _ _ _ var _ _ => var.isNone
  | .optional _ _ _ var _ => var.isNone
  | .nested _ _ _ child => varFreeNode child
/-- True when no leaf below the node has a `var` override. -/
def varFreeNode : SNode → Bool
  | .mk _ fields => varFreeFields fields
/-- True when no leaf below any of the fields has a `var` override. -/
def varFreeFields : SFields → Bool
  | .nil => true
  | .cons f fs => varFreeField f && varFreeFields fs
end

/-- True when every field is a leaf (scalar or optional) without a
`var` override — the flattened schemas of spec §8's associativity
property. -/
def flatNoVarFields : SFields → Bool
  | .nil => true
  | .cons (.scalar _ _ _ var _ _) fs => var.isNone && flatNoVarFields fs
  | .cons (.optional _ _ _ var _) fs => var.isNone && flatNoVarFields fs
  | .cons (.nested _ _ _ _) _ => false

/-- Manually prefix every leaf fragment of a flat field sequence with
the string `s`, via a `rename` override — the `flattened schema whose
every field name is manually prefixed` of spec §8. -/
def addFragPfx (s : String) : SFields → SFields
  | .nil => .nil
  | .cons (.scalar name ty parse var ren dflt) fs =>
    .cons (.scalar name ty parse var (some (s ++ fragOf name ren)) dflt) (addFragPfx s fs)
  | .cons (.optional name ty parse var ren) fs =>
    .cons (.optional name ty parse var (some (s ++ fragOf name ren))) (addFragPfx s fs)
  | .cons (.nested name ren noPfx child) fs =>
    .cons (.nested name ren noPfx child) (addFragPfx s fs)

/-- The prefix `eff` extends the prefix `P`: it is `P` itself or `P`
followed by an underscore-joined suffix. -/
def extendsPfx (P eff : String) : Prop := eff = P ∨ ∃ t, eff = P ++ "_" ++ t

/-- An underscore-joined concatenation is never the empty string. -/
theorem appendUnderscoreNeEmpty (a b : String) : a ++ "_" ++ b ≠ "" := by
  intro h
  have hl := congrArg String.length h
  rw [String.length_append, String.length_append] at hl
  have e1 : ("_" : String).length = 1 := rfl
  have e0 : ("" : String).length = 0 := rfl
  rw [e1, e0] at hl
  omega

/-- Joining a non-empty prefix yields a non-empty name. -/
theorem joinNameNeEmpty (p f : String) (hp : p ≠ "") : joinName p f ≠ "" := by
  rw [joinName, if_neg hp]
  exact appendUnderscoreNeEmpty p f

/-- A prefix extending a non-empty `P` is itself non-empty. -/
theorem extendsPfxNeEmpty {P eff : String} (hP : P ≠ "") (h : extendsPfx P eff) : eff ≠ "" := by
  cases h with
  | inl h => rw [h]; exact hP
  | inr h => obtain ⟨t, ht⟩ := h; rw [ht]; exact appendUnderscoreNeEmpty P t

/-- Shifting an underscore-joined suffix inside an extension of `P`. -/
theorem extendsShift (P R t' : String) (h : ∃ t, R = P ++ "_" ++ t) :
    ∃ t, R ++ "_" ++ t' = P ++ "_" ++ t := by
  obtain ⟨t, ht⟩ := h
  refine ⟨t ++ "_" ++ t', ?_⟩
  rw [ht, String.append_assoc (P ++ "_") t "_", String.append_assoc (P ++ "_") (t ++ "_") t']

/-- A name composed under a prefix extending a non-empty `P` starts
with `P` followed by an underscore. -/
theorem joinNameShape (P eff frag : String) (hP : P ≠ "") (hext : extendsPfx P eff) :
    ∃ t, joinName eff frag = P ++ "_" ++ t := by
  have heff : eff ≠ "" := extendsPfxNeEmpty hP hext
  rw [joinName, if_neg heff]
  cases hext with
  | inl h => exact ⟨frag, by rw [h]⟩
  | inr h => exact extendsShift P eff frag h

/-- Extending a prefix by joining a fragment preserves extension of
`P`. -/
theorem extendsPfxJoin {P eff : String} (hP : P ≠ "") (hext : extendsPfx P eff)
    (frag : String) : extendsPfx P (joinName eff frag) :=
  Or.inr (joinNameShape P eff frag hP hext)

/-- Applying a node's own prefix preserves extension of `P`. -/
theorem extendsPfxEff {P incoming : String} (hP : P ≠ "") (hext : extendsPfx P incoming) :
    ∀ own : Option String, extendsPfx P (effPfxOf incoming own)
  | some own => extendsPfxJoin hP hext (trimTrailingSep own)
  | none => hext

mutual
/-- Every variable name a `var`-free field consults under a prefix
extending a non-empty `P` starts with `P` followed by an underscore. -/
theorem vnpField (P : String) (hP : P ≠ "") (f : SField) (eff : String)
    (hext : extendsPfx P eff) (hvf : varFreeField f = true) :
    ∀ n ∈ varNamesField eff f, ∃ t, n = P ++ "_" ++ t := by
  cases f with
  | scalar name ty parse var ren dflt =>
    have hv : var = none := by
      cases var with
      | none => rfl
      | some v => simp [varFreeField] at hvf
    subst hv
    intro n hn
    rw [varNamesField, List.mem_singleton] at hn
    rw [hn]
    exact joinNameShape P eff (fragOf name ren) hP hext
  | optional name ty parse var ren =>
    have hv : var = none := by
      cases var with
      | none => rfl
      | some v => simp [varFreeField] at hvf
    subst hv
    intro n hn
    rw [varNamesField, List.mem_singleton] at hn
    rw [hn]
    exact joinNameShape P eff (fragOf name ren) hP hext
  | nested name ren noPfx child =>
    intro n hn
    rw [varNamesField] at hn
    have hext' : extendsPfx P (if noPfx then eff else joinName eff (fragOf name ren)) := by
      cases noPfx with
      | true => exact hext
      | false => exact extendsPfxJoin hP hext (fragOf name ren)
    exact vnpNode P hP child _ hext' hvf n hn
/-- Every variable name a `var`-free node consults under an incoming
prefix extending a non-empty `P` starts with `P` followed by an
underscore. -/
theorem vnpNode (P : String) (hP : P ≠ "") (s : SNode) (incoming : String)
    (hext : extendsPfx P incoming) (hvf : varFreeNode s = true) :
    ∀ n ∈ varNamesNode incoming s, ∃ t, n = P ++ "_" ++ t := by
  cases s with
  | mk ownPfx fields =>
    intro n hn
    rw [varNamesNode] at hn
    exact vnpFields P hP fields _ (extendsPfxEff hP hext ownPfx) hvf n hn
/-- Every variable name a `var`-free field sequence consults under a
prefix extending a non-empty `P` starts with `P` followed by an
underscore. -/
theorem vnpFields (P : String) (hP : P ≠ "") (fs : SFields) (eff : String)
    (hext : extendsPfx P eff) (hvf : varFreeFields fs = true) :
    ∀ n ∈ varNamesFields eff fs, ∃ t, n = P ++ "_" ++ t := by
  cases fs with
  | nil => intro n hn; rw [varNamesFields] at hn; cases hn
  | cons f fs' =>
    rw [varFreeFields, Bool.and_eq_true] at hvf
    intro n hn
    rw [varNamesFields, List.mem_append] at hn
    cases hn with
    | inl h => exact vnpField P hP f eff hext hvf.1 n h
    | inr h => exact vnpFields P hP fs' eff hext hvf.2 n h
end

/-- Resolving a flat, `var`-free field sequence under a non-empty
prefix `p` equals resolving, under the empty prefix, the same fields
with every fragment manually prefixed by `p ++ "_"`. -/
theorem resolveFieldsAddFragPfx (env : Env) :
    ∀ (p : String) (sf : SFields), p ≠ "" → flatNoVarFields sf = true →
      resolveFields p env sf = resolveFields "" env (addFragPfx (p ++ "_") sf)
  | _, .nil, _, _ => rfl
  | p, .cons (.scalar name ty parse var ren dflt) fs, hp, hf => by
    rw [flatNoVarFields, Bool.and_eq_true] at hf
    have hv : var = none := by
      cases var with
      | none => rfl
      | some v => simp at hf
    subst hv
    have hfield :
        resolveField p env (.scalar name ty parse none ren dflt)
          = resolveField "" env
              (.scalar name ty parse none (some (p ++ "_" ++ fragOf name ren)) dflt) := by
      simp [resolveField, leafVar, fragOf, joinName, hp]
    simp only [resolveFields, addFragPfx]
    rw [hfield, resolveFieldsAddFragPfx env p fs hp hf.2]
  | p, .cons (.optional name ty parse var ren) fs, hp, hf => by
    rw [flatNoVarFields, Bool.and_eq_true] at hf
    have hv : var = none := by
      cases var with
      | none => rfl
      | some v => simp at hf
    subst hv
    have hfield :
        resolveField p env (.optional name ty parse none ren)
          = resolveField "" env
              (.optional name ty parse none (some (p ++ "_" ++ fragOf name ren))) := by
      simp [resolveField, leafVar, fragOf, joinName, hp]
    simp only [resolveFields, addFragPfx]
    rw [hfield, resolveFieldsAddFragPfx env p fs hp hf.2]
  | _, .cons (.nested _ _ _ _) _, _, hf => by
    rw [flatNoVarFields] at hf
    cases hf

/-- Claim C1: a required scalar field (no default, not optional, no
`var` override) whose variable is absent resolves to `MissingEnvVar`
with exactly the name computed by the composition rule of spec §4.2.a —
`effective_prefix ++ "_" ++ fragment` when the effective prefix is
non-empty, the bare upper-cased field name otherwise.  The `from_env`
loader has the empty effective prefix, the `from_env_with_prefix(p)`
loader the (non-empty) effective prefix `p`. -/
theorem C1_required_scalar_missing (pfx : Option String) (env : Env) (name ty : String)
    (parse : String → Option Val) (hp : pfx ≠ some "")
    (habs : getEnv env (oldVarName pfx (upper name)) = none) :
    resolveFieldOld pfx env (.scalar name ty parse none none)
      = .error (.missingEnvVar (joinName (pfx.getD "") (upper name))) := by
  cases pfx with
  | none =>
    simp only [oldVarName] at habs
    simp [resolveFieldOld, oldLeafVar, oldVarName, joinName, habs]
  | some p =>
    have hpne : p ≠ "" := fun h => hp (by rw [h])
    simp only [oldVarName] at habs
    simp [resolveFieldOld, oldLeafVar, oldVarName, joinName, hpne, habs]

/-- Witness for C1: with prefix `APP` and an empty environment, the
field `count` fails with `MissingEnvVar` naming `APP_COUNT`. -/
theorem C1_witness :
    getEnv [] (oldVarName (some "APP") (upper "count")) = none
    ∧ resolveFieldOld (some "APP") [] (.scalar "count" "i32" parseNatV none none)
        = .error (.missingEnvVar "APP_COUNT") := by
  refine ⟨by decide, ?_⟩
  exact (C1_required_scalar_missing (some "APP") [] "count" "i32" parseNatV
    (by decide) (by decide)).trans (by decide)

/-- Claim C2: a nested field marked `no_prefix` resolved under a
non-empty effective prefix `P` hands `P` to the child unchanged: the
resolution equals the child's resolution at incoming prefix `P`, it is
independent of the field's own name fragment (and rename), the set of
consulted variables is exactly the child's under `P`, and — for a
`var`-free child — every consulted variable name starts with `P`
followed by an underscore. -/
theorem C2_no_prefix_inherits (P : String) (env : Env) (child : SNode) (n1 n2 : String)
    (r1 r2 : Option String) (hP : P ≠ "") (hvf : varFreeNode child = true) :
    resolveField P env (.nested n1 r1 true child) = resolveNode P env child
    ∧ resolveField P env (.nested n1 r1 true child)
        = resolveField P env (.nested n2 r2 true child)
    ∧ varNamesField P (.nested n1 r1 true child) = varNamesNode P child
    ∧ ∀ n ∈ varNamesNode P child, ∃ t, n = P ++ "_" ++ t := by
  refine ⟨?_, ?_, ?_, vnpNode P hP child P (Or.inl rfl) hvf⟩
  · simp [resolveField]
  · simp [resolveField]
  · simp [varNamesField]

/-- Witness for C2: under prefix `MAIN`, a `no_prefix` nested struct
with leaf field `host` reads `MAIN_HOST` (the scenario of
`test_no_prefix_skips_field_name`). -/
theorem C2_witness :
    ("MAIN" : String) ≠ ""
    ∧ varFreeNode (.mk none (.cons (.scalar "host" "String" parseStrV none none none) .nil))
        = true
    ∧ resolveField "MAIN" [("MAIN_HOST", "db1")]
        (.nested "database" none true
          (.mk none (.cons (.scalar "host" "String" parseStrV none none none) .nil)))
        = resolveNode "MAIN" [("MAIN_HOST", "db1")]
            (.mk none (.cons (.scalar "host" "String" parseStrV none none none) .nil))
    ∧ resolveNode "MAIN" [("MAIN_HOST", "db1")]
        (.mk none (.cons (.scalar "host" "String" parseStrV none none none) .nil))
        = .ok (.node (.cons (.leaf (.str "db1")) .nil)) := by
  refine ⟨by decide, by decide, ?_, by decide⟩
  exact (C2_no_prefix_inherits "MAIN" [("MAIN_HOST", "db1")]
    (.mk none (.cons (.scalar "host" "String" parseStrV none none none) .nil))
    "database" "db" none none (by decide) (by decide)).1

/-- Claim C3, amended: in the generated code, the `from_env` entry
point composes leaf names as the bare upper-cased fragment, while
`from_env_with_prefix` joins `prefix`, an underscore and the fragment
unconditionally — so with the empty prefix it reads the
underscore-prefixed name `"_" ++ fragment` and does not coincide with
`from_env`. -/
theorem C3_amended_entry_points (frag : String) :
    oldVarName none frag = frag
    ∧ (∀ p, oldVarName (some p) frag = p ++ "_" ++ frag)
    ∧ oldVarName (some "") frag = "_" ++ frag
    ∧ oldVarName (some "") frag ≠ oldVarName none frag := by
  refine ⟨rfl, fun p => rfl, ?_, ?_⟩
  · show "" ++ "_" ++ frag = "_" ++ frag
    rw [show ("" ++ "_" : String) = "_" from rfl]
  · intro h
    have hl := congrArg String.length h
    rw [oldVarName, oldVarName, String.length_append, String.length_append] at hl
    have e1 : ("_" : String).length = 1 := rfl
    have e0 : ("" : String).length = 0 := rfl
    rw [e1, e0] at hl
    omega

/-- Counterexample to C3 as stated: for the one-field schema `name :
String` and the environment binding only `NAME`, `from_env` succeeds
while `from_env_with_prefix("")` looks up `_NAME` and fails — the two
entry points do not return the same result at the empty prefix. -/
theorem C3_counterexample :
    fromEnvOld [("NAME", "x")] (.cons (.scalar "name" "String" parseStrV none none) .nil)
      = .ok (.node (.cons (.leaf (.str "x")) .nil))
    ∧ fromEnvWithPfxOld "" [("NAME", "x")]
        (.cons (.scalar "name" "String" parseStrV none none) .nil)
      = .error (.missingEnvVar "_NAME")
    ∧ fromEnvOld [("NAME", "x")] (.cons (.scalar "name" "String" parseStrV none none) .nil)
      ≠ fromEnvWithPfxOld "" [("NAME", "x")]
          (.cons (.scalar "name" "String" parseStrV none none) .nil) :=
  ⟨by decide, by decide, by decide⟩

/-- Witness for C3 (amended): concrete instances of the two
composition behaviours. -/
theorem C3_witness :
    oldVarName none "NAME" = "NAME" ∧ oldVarName (some "") "NAME" = "_NAME" := by
  refine ⟨(C3_amended_entry_points "NAME").1, ?_⟩
  exact ((C3_amended_entry_points "NAME").2.2.1).trans (by decide)

/-- Claim C4: resolution is fail-fast — if every field before `f`
resolves and `f` fails with error `e`, the whole struct resolves to
exactly `e`, whatever the later fields (which may themselves fail)
would do; no accumulation, no partial result. -/
theorem C4_fail_fast (pfx : Option String) (env : Env) :
    ∀ (fs1 : OldFields) (f : OldField) (fs2 : OldFields) (ts : VTrees) (e : OldErr),
      resolveFieldsOld pfx env fs1 = .ok ts →
      resolveFieldOld pfx env f = .error e →
      resolveFieldsOld pfx env (oldAppend fs1 (.cons f fs2)) = .error e
  | .nil, _, fs2, _, _, _, h2 => by
    rw [oldAppend]
    simp only [resolveFieldsOld]
    rw [h2]
  | .cons g gs, f, fs2, ts, e, h1, h2 => by
    rw [oldAppend]
    simp only [resolveFieldsOld] at h1 ⊢
    cases hg : resolveFieldOld pfx env g with
    | error e' =>
      rw [hg] at h1
      simp at h1
    | ok t =>
      rw [hg] at h1
      cases hgs : resolveFieldsOld pfx env gs with
      | error e' =>
        rw [hgs] at h1
        simp at h1
      | ok ts' =>
        rw [C4_fail_fast pfx env gs f fs2 ts' e hgs h2]

/-- Witness for C4: `required_string` is present, `required_num` and
`also_num` are both absent; the error is the one for the earlier
failing field, `REQUIRED_NUM`. -/
theorem C4_witness :
    resolveFieldsOld none [("REQUIRED_STRING", "present")]
      (oldAppend (.cons (.scalar "required_string" "String" parseStrV none none) .nil)
        (.cons (.scalar "required_num" "i32" parseNatV none none)
          (.cons (.scalar "also_num" "i32" parseNatV none none) .nil)))
      = .error (.missingEnvVar "REQUIRED_NUM") :=
  C4_fail_fast none [("REQUIRED_STRING", "present")]
    (.cons (.scalar "required_string" "String" parseStrV none none) .nil)
    (.scalar "required_num" "i32" parseNatV none none)
    (.cons (.scalar "also_num" "i32" parseNatV none none) .nil)
    (.cons (.leaf (.str "present")) .nil)
    (.missingEnvVar "REQUIRED_NUM")
    (by decide) (by decide)

/-- Claim C5: a scalar field with a default behaves, when its variable
is present, exactly like the same field without the default (the
environment text is parsed, the default ignored); when the variable is
absent the default text is parsed instead (a parse failure of the
default surfaces as `ParsingFailure` naming the composed variable and
the default text); and the field never produces `MissingEnvVar`. -/
theorem C5_default_semantics (pfx : Option String) (env : Env) (name ty d : String)
    (parse : String → Option Val) (var : Option String) :
    (∀ s, getEnv env (oldLeafVar pfx var name) = some s →
        resolveFieldOld pfx env (.scalar name ty parse (some d) var)
          = resolveFieldOld pfx env (.scalar name ty parse none var))
    ∧ (getEnv env (oldLeafVar pfx var name) = none →
        resolveFieldOld pfx env (.scalar name ty parse (some d) var)
          = match parse d with
            | some v => .ok (.leaf v)
            | none => .error (.parsingFailure (oldLeafVar pfx var name) ty d))
    ∧ ∀ x, resolveFieldOld pfx env (.scalar name ty parse (some d) var)
        ≠ .error (.missingEnvVar x) := by
  refine ⟨?_, ?_, ?_⟩
  · intro s hs
    simp [resolveFieldOld, hs]
  · intro habs
    simp [resolveFieldOld, habs]
  · intro x
    simp only [resolveFieldOld]
    cases hparse : parse ((getEnv env (oldLeafVar pfx var name)).getD d) with
    | some v => simp [hparse]
    | none => simp [hparse]

/-- Witness for C5: with `PORT=9000` the default `8080` is ignored;
with `PORT` absent the default is parsed. -/
theorem C5_witness :
    resolveFieldOld none [("PORT", "9000")] (.scalar "port" "u16" parseNatV (some "8080") none)
      = .ok (.leaf (.nat 9000))
    ∧ resolveFieldOld none [] (.scalar "port" "u16" parseNatV (some "8080") none)
      = .ok (.leaf (.nat 8080)) := by
  constructor
  · exact ((C5_default_semantics none [("PORT", "9000")] "port" "u16" "8080" parseNatV none).1
      "9000" (by decide)).trans (by decide)
  · exact ((C5_default_semantics none [] "port" "u16" "8080" parseNatV none).2.1
      (by decide)).trans (by decide)

/-- Claim C6: an `Option` field whose variable is absent resolves to
the absent value under every ambient effective prefix, never an
error. -/
theorem C6_optional_absent (eff : String) (env : Env) (name ty : String)
    (parse : String → Option Val) (var ren : Option String)
    (habs : getEnv env (leafVar eff var (fragOf name ren)) = none) :
    resolveField eff env (.optional name ty parse var ren) = .ok (.optLeaf none) := by
  simp [resolveField, habs]

/-- Witness for C6: `debug` absent under prefix `APP` resolves to no
value. -/
theorem C6_witness :
    getEnv [("REQUIRED", "must-have")] (leafVar "APP" none (fragOf "debug" none)) = none
    ∧ resolveField "APP" [("REQUIRED", "must-have")] (.optional "debug" "bool" parseStrV none none)
        = .ok (.optLeaf none) :=
  ⟨by decide,
    C6_optional_absent "APP" [("REQUIRED", "must-have")] "debug" "bool" parseStrV none none
      (by decide)⟩

/-- Claim C7: a field with a `var` override reads exactly the variable
named by `var`, regardless of the ambient prefix: its resolution is the
same under any two prefixes (e.g. `A` and `A_B_C`) and under any two
environments agreeing on that one variable. -/
theorem C7_var_override (p1 p2 : Option String) (env env' : Env) (name ty X : String)
    (parse : String → Option Val) (dflt : Option String)
    (henv : getEnv env X = getEnv env' X) :
    resolveFieldOld p1 env (.scalar name ty parse dflt (some X))
      = resolveFieldOld p2 env' (.scalar name ty parse dflt (some X)) := by
  simp only [resolveFieldOld, oldLeafVar]
  rw [henv]

/-- Witness for C7: under prefixes `A` and `A_B_C`, a field with
`var = "X"` reads the same variable `X`. -/
theorem C7_witness :
    resolveFieldOld (some "A") [("X", "v")]
        (.scalar "base_url" "String" parseStrV none (some "X"))
      = resolveFieldOld (some "A_B_C") [("X", "v")]
          (.scalar "base_url" "String" parseStrV none (some "X"))
    ∧ resolveFieldOld (some "A") [("X", "v")]
        (.scalar "base_url" "String" parseStrV none (some "X"))
      = .ok (.leaf (.str "v")) :=
  ⟨C7_var_override (some "A") (some "A_B_C") [("X", "v")] [("X", "v")]
      "base_url" "String" "X" parseStrV none rfl,
    by decide⟩

/-- Claim C8: a struct declaring its own prefix, reached via a
non-empty parent prefix `q`, resolves exactly like the same struct
without an own prefix reached via the combined prefix (parent first,
own second, the own prefix trimmed of a trailing separator); the
effective prefix is `q ++ "_" ++ trimmed`, every leaf fragment is
prefixed with `q ++ "_" ++ trimmed ++ "_"`, and for flat `var`-free
fields this equals resolving a schema whose every fragment is manually
prefixed with that string. -/
theorem C8_own_prefix_composition (q own : String) (env : Env) (fields sf : SFields)
    (hq : q ≠ "") (hsf : flatNoVarFields sf = true) :
    resolveNode q env (.mk (some own) fields)
        = resolveNode (joinName q (trimTrailingSep own)) env (.mk none fields)
    ∧ effPfxOf q (some own) = q ++ "_" ++ trimTrailingSep own
    ∧ (∀ frag, joinName (effPfxOf q (some own)) frag
          = q ++ "_" ++ trimTrailingSep own ++ "_" ++ frag)
    ∧ resolveFields (effPfxOf q (some own)) env sf
        = resolveFields "" env (addFragPfx (q ++ "_" ++ trimTrailingSep own ++ "_") sf) := by
  have heff : effPfxOf q (some own) = q ++ "_" ++ trimTrailingSep own := by
    simp [effPfxOf, joinName, hq]
  refine ⟨rfl, heff, ?_, ?_⟩
  · intro frag
    rw [heff, joinName, if_neg (appendUnderscoreNeEmpty q (trimTrailingSep own))]
  · rw [heff]
    exact resolveFieldsAddFragPfx env (q ++ "_" ++ trimTrailingSep own) sf
      (appendUnderscoreNeEmpty q (trimTrailingSep own)) hsf

/-- Witness for C8: own prefix `P_` reached via parent prefix `Q`
reads `Q_P_HOST` for leaf `host`. -/
theorem C8_witness :
    ("Q" : String) ≠ ""
    ∧ flatNoVarFields (.cons (.scalar "host" "String" parseStrV none none none) .nil) = true
    ∧ effPfxOf "Q" (some "P_") = "Q_P"
    ∧ resolveNode "Q" [("Q_P_HOST", "h")]
        (.mk (some "P_") (.cons (.scalar "host" "String" parseStrV none none none) .nil))
        = resolveNode (joinName "Q" (trimTrailingSep "P_")) [("Q_P_HOST", "h")]
            (.mk none (.cons (.scalar "host" "String" parseStrV none none none) .nil))
    ∧ resolveNode "Q" [("Q_P_HOST", "h")]
        (.mk (some "P_") (.cons (.scalar "host" "String" parseStrV none none none) .nil))
        = .ok (.node (.cons (.leaf (.str "h")) .nil)) := by
  refine ⟨by decide, by decide, ?_, ?_, by decide⟩
  · exact ((C8_own_prefix_composition "Q" "P_" [("Q_P_HOST", "h")]
      (.cons (.scalar "host" "String" parseStrV none none none) .nil)
      (.cons (.scalar "host" "String" parseStrV none none none) .nil)
      (by decide) (by decide)).2.1).trans (by decide)
  · exact (C8_own_prefix_composition "Q" "P_" [("Q_P_HOST", "h")]
      (.cons (.scalar "host" "String" parseStrV none none none) .nil)
      (.cons (.scalar "host" "String" parseStrV none none none) .nil)
      (by decide) (by decide)).1

/-- Claim C9, amended: a present-but-unparseable value at a scalar or
optional leaf fails with `ParsingFailure` carrying the exact variable
that was looked up and the human-readable target type name — and
nothing else: the current error type (`src/lib.rs`) has no `str_value`
field, so the raw text is not part of the error. -/
theorem C9_amended_parsing_failure (eff : String) (env : Env) (name ty s : String)
    (parse : String → Option Val) (var ren dflt : Option String)
    (hs : getEnv env (leafVar eff var (fragOf name ren)) = some s)
    (hp : parse s = none) :
    resolveField eff env (.scalar name ty parse var ren dflt)
        = .error (.parsingFailure (leafVar eff var (fragOf name ren)) ty)
    ∧ resolveField eff env (.optional name ty parse var ren)
        = .error (.parsingFailure (leafVar eff var (fragOf name ren)) ty) := by
  constructor <;> simp [resolveField, hs, hp]

/-- Counterexample to C9 as stated: with `COUNT=abc` and with
`COUNT=xyz` the resolution error is the identical value
`ParsingFailure` with var_name `COUNT` and expected_type `i32`; since
the raw texts differ but the errors are equal, the error cannot name
the raw text that failed — the claimed `str_value` component does not
exist in the current error type. -/
theorem C9_counterexample :
    resolveField "" [("COUNT", "abc")] (.scalar "count" "i32" parseNatV none none none)
      = .error (.parsingFailure "COUNT" "i32")
    ∧ resolveField "" [("COUNT", "xyz")] (.scalar "count" "i32" parseNatV none none none)
      = .error (.parsingFailure "COUNT" "i32")
    ∧ resolveField "" [("COUNT", "abc")] (.scalar "count" "i32" parseNatV none none none)
      = resolveField "" [("COUNT", "xyz")] (.scalar "count" "i32" parseNatV none none none)
    ∧ ("abc" : String) ≠ "xyz" :=
  ⟨by decide, by decide, by decide, by decide⟩

/-- Witness for C9 (amended): the scenario of spec §8, `COUNT=abc` at
an `i32` field. -/
theorem C9_witness :
    getEnv [("COUNT", "abc")] (leafVar "" none (fragOf "count" none)) = some "abc"
    ∧ parseNatV "abc" = none
    ∧ resolveField "" [("COUNT", "abc")] (.scalar "count" "i32" parseNatV none none none)
        = .error (.parsingFailure (leafVar "" none (fragOf "count" none)) "i32") :=
  ⟨by decide, by decide,
    (C9_amended_parsing_failure "" [("COUNT", "abc")] "count" "i32" "abc" parseNatV
      none none none (by decide) (by decide)).1⟩

/-- Claim C10: a variable bound to the empty string is present, not
missing — a required `String` field bound to `""` resolves to `""`
(even when a default is declared, the default is not substituted) and
an optional `String` field bound to `""` resolves to the present empty
string; no `MissingEnvVar` arises. -/
theorem C10_empty_string_present (pfx : Option String) (env env2 : Env)
    (name name2 : String) (dflt var2 ren2 : Option String) (eff : String)
    (h1 : getEnv env (oldLeafVar pfx none name) = some "")
    (h2 : getEnv env2 (leafVar eff var2 (fragOf name2 ren2)) = some "") :
    resolveFieldOld pfx env (.scalar name "String" parseStrV dflt none) = .ok (.leaf (.str ""))
    ∧ resolveField eff env2 (.optional name2 "String" parseStrV var2 ren2)
        = .ok (.optLeaf (some (.str ""))) := by
  constructor
  · cases dflt with
    | none => simp [resolveFieldOld, h1, parseStrV]
    | some d => simp [resolveFieldOld, h1, parseStrV]
  · simp [resolveField, h2, parseStrV]

/-- Witness for C10: the scenario of `test_empty_string_value` —
`VALUE=""` and `OPTIONAL=""`. -/
theorem C10_witness :
    getEnv [("VALUE", ""), ("OPTIONAL", "")] (oldLeafVar none none "value") = some ""
    ∧ getEnv [("VALUE", ""), ("OPTIONAL", "")] (leafVar "" none (fragOf "optional" none))
        = some ""
    ∧ resolveFieldOld none [("VALUE", ""), ("OPTIONAL", "")]
        (.scalar "value" "String" parseStrV none none) = .ok (.leaf (.str ""))
    ∧ resolveField "" [("VALUE", ""), ("OPTIONAL", "")]
        (.optional "optional" "String" parseStrV none none)
        = .ok (.optLeaf (some (.str ""))) := by
  have h := C10_empty_string_present none [("VALUE", ""), ("OPTIONAL", "")]
    [("VALUE", ""), ("OPTIONAL", "")] "value" "optional" none none none ""
    (by decide) (by decide)
  exact ⟨by decide, by decide, h.1, h.2⟩
